import Mathlib

/-!
Verification of the webhook handler's signature-checking core
(`src/main.rs` of tye-exe/Webhook_handler).

Strings are embedded as lists of natural numbers, each the value of one
UTF-8 byte (all constructors below keep them below 256).  The HMAC-SHA256
primitive used through the `hmac`/`sha2` crates is embedded directly from
FIPS 180-4 / RFC 2104, since `signature_matches` is specified in terms of
its input/output behaviour.
-/

set_option maxRecDepth 100000

namespace Webhook

/-- 2^32, the modulus for 32-bit words. -/
def M32 : Nat := 4294967296

/-- Right rotation of a 32-bit word. -/
def rotr (n x : Nat) : Nat := ((x >>> n) ||| (x <<< (32 - n))) % M32

/-- Bitwise complement of a 32-bit word. -/
def not32 (x : Nat) : Nat := x ^^^ 4294967295

def ch (x y z : Nat) : Nat := (x &&& y) ^^^ (not32 x &&& z)

def maj (x y z : Nat) : Nat := (x &&& y) ^^^ (x &&& z) ^^^ (y &&& z)

def bigSigma0 (x : Nat) : Nat := rotr 2 x ^^^ rotr 13 x ^^^ rotr 22 x

def bigSigma1 (x : Nat) : Nat := rotr 6 x ^^^ rotr 11 x ^^^ rotr 25 x

def smallSigma0 (x : Nat) : Nat := rotr 7 x ^^^ rotr 18 x ^^^ (x >>> 3)

def smallSigma1 (x : Nat) : Nat := rotr 17 x ^^^ rotr 19 x ^^^ (x >>> 10)

/-- The SHA-256 round constants, in decimal. -/
def K : List Nat :=
  [1116352408, 1899447441, 3049323471, 3921009573, 961987163, 1508970993,
   2453635748, 2870763221, 3624381080, 310598401, 607225278, 1426881987,
   1925078388, 2162078206, 2614888103, 3248222580, 3835390401, 4022224774,
   264347078, 604807628, 770255983, 1249150122, 1555081692, 1996064986,
   2554220882, 2821834349, 2952996808, 3210313671, 3336571891, 3584528711,
   113926993, 338241895, 666307205, 773529912, 1294757372, 1396182291,
   1695183700, 1986661051, 2177026350, 2456956037, 2730485921, 2820302411,
   3259730800, 3345764771, 3516065817, 3600352804, 4094571909, 275423344,
   430227734, 506948616, 659060556, 883997877, 958139571, 1322822218,
   1537002063, 1747873779, 1955562222, 2024104815, 2227730452, 2361852424,
   2428436474, 2756734187, 3204031479, 3329325298]

/-- The eight 32-bit words of a SHA-256 hash state. -/
structure Hash8 where
  a : Nat
  b : Nat
  c : Nat
  d : Nat
  e : Nat
  f : Nat
  g : Nat
  h : Nat
deriving Repr, DecidableEq

/-- The SHA-256 initial hash value, in decimal. -/
def initHash : Hash8 :=
  ⟨1779033703, 3144134277, 1013904242, 2773480762,
   1359893119, 2600822924, 528734635, 1541459225⟩

/-- Extend a 16-word message block, one word per step, following the
SHA-256 message schedule. -/
def scheduleExtend : Nat → List Nat → List Nat
  | 0, w => w
  | n + 1, w =>
      let l := w.length
      let next := (smallSigma1 (w.getD (l - 2) 0) + w.getD (l - 7) 0 +
                   smallSigma0 (w.getD (l - 15) 0) + w.getD (l - 16) 0) % M32
      scheduleExtend n (w ++ [next])

/-- One SHA-256 compression round, taking the pair of round constant and
schedule word. -/
def round (st : Hash8) (kw : Nat × Nat) : Hash8 :=
  let t1 := (st.h + bigSigma1 st.e + ch st.e st.f st.g + kw.1 + kw.2) % M32
  let t2 := (bigSigma0 st.a + maj st.a st.b st.c) % M32
  ⟨(t1 + t2) % M32, st.a, st.b, st.c, (st.d + t1) % M32, st.e, st.f, st.g⟩

/-- Compress one 16-word block into the hash state. -/
def processBlock (st : Hash8) (ws : List Nat) : Hash8 :=
  let w := scheduleExtend 48 ws
  let r := (K.zip w).foldl round st
  ⟨(st.a + r.a) % M32, (st.b + r.b) % M32, (st.c + r.c) % M32,
   (st.d + r.d) % M32, (st.e + r.e) % M32, (st.f + r.f) % M32,
   (st.g + r.g) % M32, (st.h + r.h) % M32⟩

/-- Pack big-endian bytes into 32-bit words (the input length is a
multiple of four after padding; a ragged tail would be dropped). -/
def bytesToWords : List Nat → List Nat
  | b0 :: b1 :: b2 :: b3 :: rest =>
      (b0 * 16777216 + b1 * 65536 + b2 * 256 + b3) :: bytesToWords rest
  | _ => []

/-- Split a word list into 16-word blocks (the input length is a multiple
of sixteen after padding; a ragged tail would be dropped). -/
def toBlocks : List Nat → List (List Nat)
  | w0 :: w1 :: w2 :: w3 :: w4 :: w5 :: w6 :: w7 ::
    w8 :: w9 :: w10 :: w11 :: w12 :: w13 :: w14 :: w15 :: rest =>
      [w0, w1, w2, w3, w4, w5, w6, w7, w8, w9, w10, w11, w12, w13, w14, w15]
        :: toBlocks rest
  | _ => []

/-- The 8-byte big-endian encoding of a message bit length. -/
def lenBytes (n : Nat) : List Nat :=
  [n / 72057594037927936 % 256, n / 281474976710656 % 256,
   n / 1099511627776 % 256, n / 4294967296 % 256,
   n / 16777216 % 256, n / 65536 % 256, n / 256 % 256, n % 256]

/-- SHA-256 padding: a 0x80 byte, zeros to 56 mod 64, then the bit length. -/
def padMessage (msg : List Nat) : List Nat :=
  msg ++ [128] ++ List.replicate ((119 - msg.length % 64) % 64) 0
      ++ lenBytes (msg.length * 8)

/-- Serialise the hash state as 32 big-endian bytes. -/
def wordBytes (w : Nat) : List Nat :=
  [w / 16777216 % 256, w / 65536 % 256, w / 256 % 256, w % 256]

def stateBytes (st : Hash8) : List Nat :=
  wordBytes st.a ++ wordBytes st.b ++ wordBytes st.c ++ wordBytes st.d ++
  wordBytes st.e ++ wordBytes st.f ++ wordBytes st.g ++ wordBytes st.h

/-- SHA-256 of a byte string, as 32 bytes. -/
def sha256 (msg : List Nat) : List Nat :=
  stateBytes ((toBlocks (bytesToWords (padMessage msg))).foldl processBlock initHash)

/-- The HMAC-SHA256 key schedule: a key longer than the 64-byte block is
replaced by its digest, then the key is zero-padded to 64 bytes. -/
def hmacPrepKey (key : List Nat) : List Nat :=
  let k := if 64 < key.length then sha256 key else key
  k ++ List.replicate (64 - k.length) 0

/-- `Hmac::<Sha256>::new_from_slice` from the `hmac` crate: the returned
`Result` is always `Ok`, since HMAC accepts keys of every length (long
keys are hashed, short keys zero-padded).  `none` models the `Err` case
that the crate never produces for HMAC. -/
def new_from_slice (key : List Nat) : Option (List Nat) :=
  some (hmacPrepKey key)

/-- HMAC-SHA256 of `msg` keyed by `key`, as 32 bytes. -/
def hmacSha256 (key msg : List Nat) : List Nat :=
  let k := hmacPrepKey key
  sha256 ((k.map (fun b => b ^^^ 0x5c)) ++
          sha256 ((k.map (fun b => b ^^^ 0x36)) ++ msg))

/-- The value of an ASCII hexadecimal digit, as accepted by the `hex`
crate: `0`-`9`, `a`-`f` and `A`-`F`. -/
def hexDigitVal (c : Nat) : Option Nat :=
  if 48 ≤ c ∧ c ≤ 57 then some (c - 48)
  else if 97 ≤ c ∧ c ≤ 102 then some (c - 87)
  else if 65 ≤ c ∧ c ≤ 70 then some (c - 55)
  else none

/-- `hex::decode`: pairs of hexadecimal digits to bytes; `none` models the
`FromHexError` returned on an odd length or a non-hexadecimal character. -/
def hexDecode : List Nat → Option (List Nat)
  | [] => some []
  | [_] => none
  | hi :: lo :: rest => do
      let hv ← hexDigitVal hi
      let lv ← hexDigitVal lo
      let tail ← hexDecode rest
      pure ((hv * 16 + lv) :: tail)

/-- The lowercase hexadecimal digit for a value below 16. -/
def hexDigitChar (n : Nat) : Nat := if n < 10 then 48 + n else 87 + n

/-- `hex::encode`: bytes to lowercase hexadecimal characters. -/
def hexEncode : List Nat → List Nat
  | [] => []
  | b :: rest => hexDigitChar (b / 16) :: hexDigitChar (b % 16) :: hexEncode rest

/-- `str::is_char_boundary`: true at 0 and at the length, and otherwise
exactly when the byte at the index is not a UTF-8 continuation byte. -/
def isCharBoundary (s : List Nat) (i : Nat) : Bool :=
  if i = 0 then true
  else if i = s.length then true
  else if i < s.length then decide (s.getD i 0 < 128 ∨ 192 ≤ s.getD i 0)
  else false

/-- `str::split_at_checked`: split at a byte index, `none` when the index
is past the end or not a character boundary. -/
def splitAtChecked (s : List Nat) (i : Nat) : Option (List Nat × List Nat) :=
  if isCharBoundary s i then some (s.take i, s.drop i) else none

/-- The possible errors when checking that the received signature is
correct (`enum SignatureError`): badHex carries the `hex::FromHexError`
and validationError the `hmac::digest::MacError` in the source. -/
inductive SignatureError where
  | notASCII
  | badHex
  | validationError
deriving Repr, DecidableEq

instance : DecidableEq (Except SignatureError Unit) := fun a b =>
  match a, b with
  | .ok (), .ok () => isTrue rfl
  | .error x, .error y =>
      if h : x = y then isTrue (by rw [h]) else isFalse (by simp [h])
  | .ok _, .error _ => isFalse (by simp)
  | .error _, .ok _ => isFalse (by simp)

/-- `Mac::verify_slice`: constant-time comparison of the computed tag
against the received bytes; `MacError` on any mismatch of content or
length. -/
def verify_slice (tag received : List Nat) : Except SignatureError Unit :=
  if received = tag then .ok () else .error .validationError

/-- `signature_matches` from `src/main.rs`: strip the seven leading bytes
with `split_at_checked`, hex-decode the remainder, and verify it against
the HMAC-SHA256 of the payload keyed by the secret. -/
def signature_matches (secret payload signature : List Nat) :
    Except SignatureError Unit :=
  match splitAtChecked signature 7 with
  | none => .error .notASCII
  | some (_, hexSignature) =>
    match hexDecode hexSignature with
    | none => .error .badHex
    | some raw_signature => verify_slice (hmacSha256 secret payload) raw_signature

/-- The `rocket::http::Status` values produced by the handler. -/
inductive Status where
  | ok
  | badRequest
  | unauthorized
  | internalServerError
deriving Repr, DecidableEq

/-- `webhook_listen` from `src/main.rs`.  The two environment lookups are
passed in as `Option`s (`none` models `env::var` returning `Err`), and the
outcome of `Command::new("bash").arg(path).spawn()` as the `spawnOk`
Boolean; the function checks the script path, then the secret, then the
signature, then spawns the script. -/
def webhook_listen (scriptPath secret : Option (List Nat))
    (signature userInput : List Nat) (spawnOk : Bool) : Status :=
  match scriptPath with
  | none => .internalServerError
  | some _ =>
    match secret with
    | none => .internalServerError
    | some s =>
      match signature_matches s userInput signature with
      | .error _ => .unauthorized
      | .ok _ => if spawnOk then .ok else .internalServerError

/-- The bytes of the seven-character tag `sha256=` that GitHub places
before the hexadecimal digest. -/
def tagBytes : List Nat := [115, 104, 97, 50, 53, 54, 61]

/-- The bytes of the secret of the end-to-end example,
`It's a Secret to Everybody`. -/
def exSecret : List Nat :=
  [73, 116, 39, 115, 32, 97, 32, 83, 101, 99, 114, 101, 116, 32, 116, 111,
   32, 69, 118, 101, 114, 121, 98, 111, 100, 121]

/-- The bytes of the payload of the end-to-end example, `Hello, World!`. -/
def exPayload : List Nat :=
  [72, 101, 108, 108, 111, 44, 32, 87, 111, 114, 108, 100, 33]

/-- The 64 hexadecimal characters of the example's expected digest,
`757107ea0eb2509fc211221cce984b8a37570b6d7586c22c46f4379c8b043e17`. -/
def exHex : List Nat :=
  [55, 53, 55, 49, 48, 55, 101, 97, 48, 101, 98, 50, 53, 48, 57, 102,
   99, 50, 49, 49, 50, 50, 49, 99, 99, 101, 57, 56, 52, 98, 56, 97,
   51, 55, 53, 55, 48, 98, 54, 100, 55, 53, 56, 54, 99, 50, 50, 99,
   52, 54, 102, 52, 51, 55, 57, 99, 56, 98, 48, 52, 51, 101, 49, 55]

/-- The full claimed signature of the end-to-end example. -/
def exSignature : List Nat := tagBytes ++ exHex

/-- The 32 digest bytes the example's hex characters decode to. -/
def exDigest : List Nat :=
  [0x75, 0x71, 0x07, 0xea, 0x0e, 0xb2, 0x50, 0x9f,
   0xc2, 0x11, 0x22, 0x1c, 0xce, 0x98, 0x4b, 0x8a,
   0x37, 0x57, 0x0b, 0x6d, 0x75, 0x86, 0xc2, 0x2c,
   0x46, 0xf4, 0x37, 0x9c, 0x8b, 0x04, 0x3e, 0x17]

/-- `signature_matches` with the `unwrap` after `new_from_slice` left
explicit: a `none` result is the panic the `unwrap` would raise, and the
code after the unwrap is the chain-update/verify pipeline of the source. -/
def signature_matches_checked (secret payload signature : List Nat) :
    Option (Except SignatureError Unit) :=
  match splitAtChecked signature 7 with
  | none => some (.error .notASCII)
  | some (_, hexSignature) =>
    match hexDecode hexSignature with
    | none => some (.error .badHex)
    | some raw_signature =>
      match new_from_slice secret with
      | none => none
      | some k =>
          some (verify_slice
            (sha256 ((k.map (fun b => b ^^^ 0x5c)) ++
                     sha256 ((k.map (fun b => b ^^^ 0x36)) ++ payload)))
            raw_signature)

/-! ### Basic facts about the embedded primitives -/

theorem hexDigitVal_hexDigitChar {n : Nat} (h : n < 16) :
    hexDigitVal (hexDigitChar n) = some n := by
  interval_cases n <;> decide

theorem hexDigitChar_lt {n : Nat} (h : n < 16) : hexDigitChar n < 128 := by
  unfold hexDigitChar; split <;> omega

theorem hexDigitVal_lt {c v : Nat} (h : hexDigitVal c = some v) : v < 16 := by
  unfold hexDigitVal at h
  split at h
  · injection h with h; omega
  · split at h
    · injection h with h; omega
    · split at h
      · injection h with h; omega
      · exact absurd h (by simp)

theorem hexEncode_length (l : List Nat) : (hexEncode l).length = 2 * l.length := by
  induction l with
  | nil => rfl
  | cons b rest ih => simp [hexEncode, ih]; omega

theorem hexDecode_hexEncode {l : List Nat} (h : ∀ b ∈ l, b < 256) :
    hexDecode (hexEncode l) = some l := by
  induction l with
  | nil => rfl
  | cons b rest ih =>
      have hb : b < 256 := h b (List.mem_cons_self _ _)
      have h1 : b / 16 < 16 := by omega
      have h2 : b % 16 < 16 := Nat.mod_lt _ (by norm_num)
      have hrest := ih fun x hx => h x (List.mem_cons_of_mem _ hx)
      simp only [hexEncode, hexDecode, hexDigitVal_hexDigitChar h1,
        hexDigitVal_hexDigitChar h2, hrest, Option.bind_eq_bind,
        Option.some_bind, Option.pure_def, Option.some.injEq,
        List.cons.injEq, and_true]
      have := Nat.div_add_mod b 16
      omega

theorem wordBytes_lt (w : Nat) : ∀ b ∈ wordBytes w, b < 256 := by
  intro b hb
  simp only [wordBytes, List.mem_cons, List.not_mem_nil, or_false] at hb
  rcases hb with rfl | rfl | rfl | rfl <;> exact Nat.mod_lt _ (by norm_num)

theorem stateBytes_lt (st : Hash8) : ∀ b ∈ stateBytes st, b < 256 := by
  intro b hb
  simp only [stateBytes, List.mem_append] at hb
  rcases hb with ((((((h | h) | h) | h) | h) | h) | h) | h <;>
    exact wordBytes_lt _ _ h

theorem stateBytes_length (st : Hash8) : (stateBytes st).length = 32 := by
  simp [stateBytes, wordBytes]

theorem sha256_lt (msg : List Nat) : ∀ b ∈ sha256 msg, b < 256 :=
  stateBytes_lt _

theorem sha256_length (msg : List Nat) : (sha256 msg).length = 32 :=
  stateBytes_length _

theorem hmacSha256_lt (key msg : List Nat) : ∀ b ∈ hmacSha256 key msg, b < 256 :=
  sha256_lt _

theorem hmacSha256_length (key msg : List Nat) : (hmacSha256 key msg).length = 32 :=
  sha256_length _

theorem splitAtChecked_append {pre rest : List Nat} (hlen : pre.length = 7)
    (hne : rest ≠ []) (hascii : rest.getD 0 0 < 128) :
    splitAtChecked (pre ++ rest) 7 = some (pre, rest) := by
  have hrl : 0 < rest.length := List.length_pos.mpr hne
  have hlen' : (pre ++ rest).length = 7 + rest.length := by simp [hlen]
  have hget : (pre ++ rest).getD 7 0 = rest.getD 0 0 := by
    simp only [List.getD_eq_getElem?_getD]
    rw [List.getElem?_append_right (by omega)]
    simp [hlen]
  have hb : isCharBoundary (pre ++ rest) 7 = true := by
    unfold isCharBoundary
    rw [if_neg (by omega), if_neg (by omega), if_pos (by omega), hget]
    exact decide_eq_true (Or.inl hascii)
  unfold splitAtChecked
  rw [hb, if_pos rfl, List.take_left' hlen, List.drop_left' hlen]

/-- Any 7-byte prefix followed by the hex encoding of the correct HMAC
digest verifies: the code never inspects the prefix it strips. -/
theorem signature_matches_prefixed (secret payload pre : List Nat)
    (hlen : pre.length = 7) :
    signature_matches secret payload
      (pre ++ hexEncode (hmacSha256 secret payload)) = .ok () := by
  have hlt := hmacSha256_lt secret payload
  have hl32 := hmacSha256_length secret payload
  obtain ⟨b, rest, hbr⟩ : ∃ b rest, hmacSha256 secret payload = b :: rest := by
    cases hd : hmacSha256 secret payload with
    | nil => rw [hd] at hl32; simp at hl32
    | cons b rest => exact ⟨b, rest, rfl⟩
  have hne : hexEncode (hmacSha256 secret payload) ≠ [] := by
    rw [hbr]; simp [hexEncode]
  have hb256 : b < 256 := by rw [hbr] at hlt; exact hlt b (List.mem_cons_self _ _)
  have hascii : (hexEncode (hmacSha256 secret payload)).getD 0 0 < 128 := by
    rw [hbr]
    simp only [hexEncode, List.getD_cons_zero]
    exact hexDigitChar_lt (by omega)
  unfold signature_matches
  rw [splitAtChecked_append hlen hne hascii]
  dsimp only
  rw [hexDecode_hexEncode hlt]
  dsimp only
  unfold verify_slice
  rw [if_pos rfl]

/-- A 7-byte prefix followed by the hex encoding of any wrong digest is
rejected with the digest-mismatch error. -/
theorem signature_matches_wrong_digest (secret payload pre d : List Nat)
    (hlen : pre.length = 7) (hd : ∀ b ∈ d, b < 256) (hdne : d ≠ [])
    (hwrong : d ≠ hmacSha256 secret payload) :
    signature_matches secret payload (pre ++ hexEncode d) =
      .error .validationError := by
  obtain ⟨b, rest, hbr⟩ : ∃ b rest, d = b :: rest := by
    cases d with
    | nil => exact absurd rfl hdne
    | cons b rest => exact ⟨b, rest, rfl⟩
  have hne : hexEncode d ≠ [] := by rw [hbr]; simp [hexEncode]
  have hb256 : b < 256 := by rw [hbr] at hd; exact hd b (List.mem_cons_self _ _)
  have hascii : (hexEncode d).getD 0 0 < 128 := by
    rw [hbr]
    simp only [hexEncode, List.getD_cons_zero]
    exact hexDigitChar_lt (by omega)
  unfold signature_matches
  rw [splitAtChecked_append hlen hne hascii]
  dsimp only
  rw [hexDecode_hexEncode hd]
  dsimp only
  unfold verify_slice
  rw [if_neg hwrong]

/-! ### The claims -/

/-- C1: for every secret S and payload P, calling `signature_matches` with
the claimed signature `sha256=` followed by the lowercase hex encoding of
HMAC-SHA256 keyed by S over P returns `Ok(())`. -/
theorem C1_valid_signature_accepted (secret payload : List Nat) :
    signature_matches secret payload
      (tagBytes ++ hexEncode (hmacSha256 secret payload)) = .ok () :=
  signature_matches_prefixed secret payload tagBytes (by decide)

/-- C2 (counterexample): the secrets `abc` and `abc\x00` are distinct, yet
a signature generated from the latter verifies against the former, because
HMAC zero-pads keys shorter than its 64-byte block.  The claim that
verification fails for every pair of distinct secrets is therefore false. -/
theorem C2_counterexample :
    ([97, 98, 99] : List Nat) ≠ [97, 98, 99, 0] ∧
    signature_matches [97, 98, 99] [120]
      (tagBytes ++ hexEncode (hmacSha256 [97, 98, 99, 0] [120])) = .ok () := by
  constructor
  · decide
  · have h : hmacSha256 ([97, 98, 99, 0] : List Nat) [120] =
        hmacSha256 [97, 98, 99] [120] := by decide
    rw [h]
    exact signature_matches_prefixed _ _ tagBytes (by decide)

/-- C2 (amended): for secrets S, S′ whose HMAC-SHA256 digests over the
payload differ — in particular whenever neither padded key is a zero-pad
of the other — a signature generated from S′ is rejected with a digest
mismatch when verified against S. -/
theorem C2_amended_wrong_secret_rejected (s s2 payload : List Nat)
    (hne : hmacSha256 s2 payload ≠ hmacSha256 s payload) :
    signature_matches s payload
      (tagBytes ++ hexEncode (hmacSha256 s2 payload)) =
      .error .validationError := by
  have hl32 := hmacSha256_length s2 payload
  refine signature_matches_wrong_digest s payload tagBytes _ (by decide)
    (hmacSha256_lt s2 payload) ?_ hne
  intro h
  rw [h] at hl32
  simp at hl32

theorem C2_amended_witness :
    hmacSha256 [97] [] ≠ hmacSha256 [98] [] ∧
    signature_matches [98] [] (tagBytes ++ hexEncode (hmacSha256 [97] [])) =
      .error .validationError := by
  have h : hmacSha256 ([97] : List Nat) [] ≠ hmacSha256 [98] [] := by decide
  exact ⟨h, C2_amended_wrong_secret_rejected [98] [97] [] h⟩

/-- A remainder with a non-hexadecimal character or an odd length fails to
decode. -/
theorem hexDecode_none (l : List Nat) :
    ((∃ b ∈ l, hexDigitVal b = none) ∨ l.length % 2 = 1) →
    hexDecode l = none := by
  induction l using hexDecode.induct with
  | case1 => intro h; simp at h
  | case2 x => intro _; rfl
  | case3 hi lo rest ih =>
      intro h
      have key : hexDigitVal hi = none ∨ hexDigitVal lo = none ∨
          hexDecode rest = none := by
        rcases h with ⟨b, hb, hbv⟩ | hodd
        · simp only [List.mem_cons] at hb
          rcases hb with rfl | rfl | hb
          · exact Or.inl hbv
          · exact Or.inr (Or.inl hbv)
          · exact Or.inr (Or.inr (ih (Or.inl ⟨b, hb, hbv⟩)))
        · refine Or.inr (Or.inr (ih (Or.inr ?_)))
          simp only [List.length_cons] at hodd
          omega
      rcases key with hk | hk | hk
      · simp [hexDecode, hk]
      · cases hhi : hexDigitVal hi <;> simp [hexDecode, hhi, hk]
      · cases hhi : hexDigitVal hi <;> cases hlo : hexDigitVal lo <;>
          simp [hexDecode, hhi, hlo, hk]

theorem hexDecode_cons_cons (c1 c2 : Nat) (rest : List Nat) :
    hexDecode (c1 :: c2 :: rest) =
      (hexDigitVal c1).bind fun hv =>
      (hexDigitVal c2).bind fun lv =>
      (hexDecode rest).bind fun tail => some ((hv * 16 + lv) :: tail) := rfl

/-- Changing one character of a decodable hex string to a character with a
different hex value either breaks decoding or changes the decoded bytes. -/
theorem hexDecode_set_ne (l : List Nat) :
    ∀ bs i c, hexDecode l = some bs → i < l.length →
      hexDigitVal c ≠ hexDigitVal (l.getD i 0) →
      hexDecode (l.set i c) = none ∨
        ∃ bs2, hexDecode (l.set i c) = some bs2 ∧ bs2 ≠ bs := by
  induction l using hexDecode.induct with
  | case1 =>
      intro bs i c _ hilen _
      simp at hilen
  | case2 x =>
      intro bs i c hde _ _
      simp [hexDecode] at hde
  | case3 c1 c2 rest ih =>
      intro bs i c hde hilen hc
      rw [hexDecode_cons_cons] at hde
      cases h1 : hexDigitVal c1 with
      | none => rw [h1] at hde; simp at hde
      | some hv =>
      cases h2 : hexDigitVal c2 with
      | none => rw [h1, h2] at hde; simp at hde
      | some lv =>
      cases h3 : hexDecode rest with
      | none => rw [h1, h2, h3] at hde; simp at hde
      | some tail =>
      rw [h1, h2, h3] at hde
      simp only [Option.some_bind, Option.some.injEq] at hde
      subst hde
      cases i with
      | zero =>
          simp only [List.getD_cons_zero] at hc
          rw [h1] at hc
          cases h4 : hexDigitVal c with
          | none =>
              left
              show hexDecode (c :: c2 :: rest) = none
              rw [hexDecode_cons_cons, h4]
              rfl
          | some v2 =>
              have hne : v2 ≠ hv := fun he => hc (by rw [h4, he])
              right
              refine ⟨(v2 * 16 + lv) :: tail, ?_, ?_⟩
              · show hexDecode (c :: c2 :: rest) = _
                rw [hexDecode_cons_cons, h4, h2, h3]
                rfl
              · intro heq
                injection heq with heq1 _
                exact hne (by omega)
      | succ i1 =>
        cases i1 with
        | zero =>
            simp only [List.getD_cons_succ, List.getD_cons_zero] at hc
            rw [h2] at hc
            cases h4 : hexDigitVal c with
            | none =>
                left
                show hexDecode (c1 :: c :: rest) = none
                rw [hexDecode_cons_cons, h1, h4]
                rfl
            | some v2 =>
                have hne : v2 ≠ lv := fun he => hc (by rw [h4, he])
                right
                refine ⟨(hv * 16 + v2) :: tail, ?_, ?_⟩
                · show hexDecode (c1 :: c :: rest) = _
                  rw [hexDecode_cons_cons, h1, h4, h3]
                  rfl
                · intro heq
                  injection heq with heq1 _
                  exact hne (by omega)
        | succ n =>
            simp only [List.length_cons] at hilen
            simp only [List.getD_cons_succ] at hc
            rcases ih tail n c h3 (by omega) hc with hnone | ⟨tail2, htail2, hta⟩
            · left
              show hexDecode (c1 :: c2 :: rest.set n c) = none
              rw [hexDecode_cons_cons, h1, h2, hnone]
              rfl
            · right
              refine ⟨(hv * 16 + lv) :: tail2, ?_, ?_⟩
              · show hexDecode (c1 :: c2 :: rest.set n c) = _
                rw [hexDecode_cons_cons, h1, h2, htail2]
                rfl
              · intro heq
                injection heq with _ heq2
                exact hta heq2

/-- C5: a claimed signature shorter than the 7-character tag, or one where
byte 7 is not a character boundary, is rejected with the structural error
`NotASCII` — the result is neither the hex-decode error nor the
digest-mismatch error, so no decoding or HMAC outcome is observable. -/
theorem C5_short_signature_structural_error
    (secret payload signature : List Nat)
    (h : signature.length < 7 ∨ isCharBoundary signature 7 = false) :
    signature_matches secret payload signature = .error .notASCII := by
  have hb : isCharBoundary signature 7 = false := by
    rcases h with h | h
    · unfold isCharBoundary
      rw [if_neg (by omega), if_neg (by omega), if_neg (by omega)]
    · exact h
  unfold signature_matches splitAtChecked
  rw [hb, if_neg (by simp)]

theorem C5_witness :
    (([] : List Nat).length < 7 ∨ isCharBoundary [] 7 = false) ∧
    signature_matches [] [] [] = .error .notASCII :=
  ⟨Or.inl (by decide),
   C5_short_signature_structural_error [] [] [] (Or.inl (by decide))⟩

/-- C6: a remainder after the 7-byte tag that has a non-hexadecimal
character or an odd length produces the internal error `BadHex` (a
constructor distinct from `ValidationError`), while `webhook_listen` maps
every `SignatureError` — whichever variant — to the single outward status
`Unauthorized`. -/
theorem C6_badHex_distinct_but_unauthorized :
    (∀ secret payload sig pre rest,
      splitAtChecked sig 7 = some (pre, rest) →
      ((∃ b ∈ rest, hexDigitVal b = none) ∨ rest.length % 2 = 1) →
      signature_matches secret payload sig = .error .badHex) ∧
    (∀ path secret sig body spawnOk e,
      signature_matches secret body sig = .error e →
      webhook_listen (some path) (some secret) sig body spawnOk =
        .unauthorized) := by
  constructor
  · intro secret payload sig pre rest hsplit hbad
    unfold signature_matches
    rw [hsplit]
    dsimp only
    rw [hexDecode_none rest hbad]
  · intro path secret sig body spawnOk e herr
    unfold webhook_listen
    dsimp only
    rw [herr]

theorem C6_witness :
    signature_matches [] [] (tagBytes ++ [48, 49, 50, 51, 97, 99, 100]) =
      .error .badHex ∧
    webhook_listen (some []) (some [])
      (tagBytes ++ [48, 49, 50, 51, 97, 99, 100]) [] true = .unauthorized := by
  have h1 := C6_badHex_distinct_but_unauthorized.1 [] []
    (tagBytes ++ [48, 49, 50, 51, 97, 99, 100]) tagBytes
    [48, 49, 50, 51, 97, 99, 100] (by decide) (Or.inr (by decide))
  exact ⟨h1, C6_badHex_distinct_but_unauthorized.2 [] [] _ [] true .badHex h1⟩

/-- C7: when the script path or the secret is missing from the
environment, `webhook_listen` answers `InternalServerError`, never
`Unauthorized`, for every request body, claimed signature and spawn
outcome; both lookups happen before any signature check. -/
theorem C7_missing_config_server_error
    (scriptPath secret : Option (List Nat)) (signature userInput : List Nat)
    (spawnOk : Bool) (h : scriptPath = none ∨ secret = none) :
    webhook_listen scriptPath secret signature userInput spawnOk =
      .internalServerError := by
  rcases h with rfl | rfl
  · rfl
  · cases scriptPath <;> rfl

theorem C7_witness :
    ((none : Option (List Nat)) = none ∨ (some [] : Option (List Nat)) = none) ∧
    webhook_listen none (some []) exSignature [] true = .internalServerError :=
  ⟨Or.inl rfl,
   C7_missing_config_server_error none (some []) exSignature [] true (Or.inl rfl)⟩

/-- C4 (counterexample): changing hex character 6 of the example claimed
signature (byte 13) from lowercase `e` (101) to uppercase `E` (69) is a
single-character change, yet the mutated signature still verifies: the hex
decoder accepts both letter cases, so the claim that every single changed
hex character fails is false. -/
theorem C4_counterexample :
    exSignature.set 13 69 ≠ exSignature ∧
    signature_matches exSecret exPayload (exSignature.set 13 69) = .ok () := by
  constructor
  · decide
  · decide

/-- C4 (amended): the example claimed signature verifies, and changing any
single hex character to a character of a *different hexadecimal value*
(including every non-hex character) makes verification fail.  A change
that keeps the value — a lowercase hex letter to its uppercase form —
still verifies, which is what the counterexample exhibits. -/
theorem C4_example_and_mutations :
    signature_matches exSecret exPayload exSignature = .ok () ∧
    ∀ i, i < 64 → ∀ c, hexDigitVal c ≠ hexDigitVal (exHex.getD i 0) →
      ∃ e, signature_matches exSecret exPayload (exSignature.set (7 + i) c) =
        .error e := by
  constructor
  · decide
  · intro i hilen c hc
    have h7 : tagBytes.length = 7 := rfl
    have hset : exSignature.set (7 + i) c = tagBytes ++ exHex.set i c := by
      unfold exSignature
      rw [List.set_append_right _ _ (show tagBytes.length ≤ 7 + i by
            rw [h7]; omega),
          h7, Nat.add_sub_cancel_left]
    rw [hset]
    have hdec : hexDecode exHex = some exDigest := by decide
    have hdig : hmacSha256 exSecret exPayload = exDigest := by decide
    have hexlen : exHex.length = 64 := by decide
    by_cases hb : isCharBoundary (tagBytes ++ exHex.set i c) 7 = true
    · have hsplit : splitAtChecked (tagBytes ++ exHex.set i c) 7 =
          some (tagBytes, exHex.set i c) := by
        unfold splitAtChecked
        rw [if_pos hb, List.take_left' h7, List.drop_left' h7]
      rcases hexDecode_set_ne exHex exDigest i c hdec
          (by rw [hexlen]; exact hilen) hc with hnone | ⟨bs2, hbs2, hne⟩
      · refine ⟨.badHex, ?_⟩
        unfold signature_matches
        rw [hsplit]
        dsimp only
        rw [hnone]
      · refine ⟨.validationError, ?_⟩
        unfold signature_matches
        rw [hsplit]
        dsimp only
        rw [hbs2]
        dsimp only
        unfold verify_slice
        rw [hdig, if_neg hne]
    · refine ⟨.notASCII, ?_⟩
      unfold signature_matches splitAtChecked
      rw [if_neg hb]

theorem C4_witness :
    (6 < 64 ∧ hexDigitVal 48 ≠ hexDigitVal (exHex.getD 6 0)) ∧
    ∃ e, signature_matches exSecret exPayload (exSignature.set (7 + 6) 48) =
      .error e :=
  ⟨⟨by decide, by decide⟩,
   C4_example_and_mutations.2 6 (by decide) 48 (by decide)⟩

/-- C9: the stripped 7-character prefix is never compared against
`sha256=`: for every secret, payload and 7-character ASCII prefix string
q, the claimed signature q followed by the correct digest hex is accepted,
even when q is not `sha256=`. -/
theorem C9_tag_never_validated (secret payload q : List Nat)
    (hlen : q.length = 7) (_hascii : ∀ b ∈ q, b < 128) :
    signature_matches secret payload
      (q ++ hexEncode (hmacSha256 secret payload)) = .ok () :=
  signature_matches_prefixed secret payload q hlen

theorem C9_witness :
    (([110, 111, 116, 115, 104, 97, 50] : List Nat).length = 7 ∧
      ∀ b ∈ ([110, 111, 116, 115, 104, 97, 50] : List Nat), b < 128) ∧
    signature_matches [] []
      ([110, 111, 116, 115, 104, 97, 50] ++ hexEncode (hmacSha256 [] [])) =
      .ok () :=
  ⟨⟨by decide, by decide⟩,
   C9_tag_never_validated [] [] [110, 111, 116, 115, 104, 97, 50]
     (by decide) (by decide)⟩

/-- C10: `signature_matches` never reaches the panic of the `unwrap`
after `new_from_slice`: the explicitly-checked variant is `some` of the
total function's result on every input, because HMAC-SHA256 accepts keys
of every length. -/
theorem C10_total_no_panic (secret payload signature : List Nat) :
    signature_matches_checked secret payload signature =
      some (signature_matches secret payload signature) := by
  unfold signature_matches_checked signature_matches new_from_slice hmacSha256
  cases splitAtChecked signature 7 with
  | none => rfl
  | some p =>
      obtain ⟨pre, rest⟩ := p
      dsimp only
      cases hexDecode rest with
      | none => rfl
      | some raw => rfl

end Webhook
